import Mathlib

/-!
Shallow embedding of the salary-report program (`src/main.py`): CSV record
parsing, the payout report aggregator, and the average-rate report
aggregator.  Strings are modelled by Lean `String` (processed through
explicit `List Char` helpers that mirror Python `str.strip` / `str.split`),
numbers by `ℚ` (an idealization of Python `float`; binary-representation
effects are out of scope of this development).
-/

/-- ASCII whitespace, mirroring the characters Python `str.strip()` removes
for the inputs this program handles. -/
def isSpaceChar (c : Char) : Bool :=
  c = ' ' || c = '\t' || c = '\n' || c = '\r' || c = '\x0b' || c = '\x0c'

/-- Remove leading whitespace from a character list. -/
def stripLeading (cs : List Char) : List Char := cs.dropWhile isSpaceChar

/-- Python `str.strip()`: remove leading and trailing whitespace. -/
def stripChars (cs : List Char) : List Char :=
  ((stripLeading cs).reverse.dropWhile isSpaceChar).reverse

/-- Python `str.strip()` on a `String`. -/
def pyStrip (s : String) : String := ⟨stripChars s.toList⟩

/-- Python `str.split(",")` on a character list: split on every comma;
the empty input yields one empty group. -/
def splitComma : List Char → List (List Char)
  | [] => [[]]
  | c :: rest =>
    match splitComma rest with
    | [] => [[]]
    | g :: gs => if c = ',' then [] :: g :: gs else (c :: g) :: gs

/-- Python `str.split(",")` on a `String`. -/
def pySplitComma (s : String) : List String :=
  (splitComma s.toList).map (fun g => ⟨g⟩)

/-! ## Numeric text parsing (model of Python `float(str)`)

Python `float` strips surrounding whitespace and accepts an optional sign,
a decimal mantissa (`digits`, `digits.digits`, `digits.`, `.digits`) and an
optional exponent part.  (`inf`/`nan` spellings and `_` digit separators
are not modelled; no claim depends on them.)  The value is modelled
exactly in `ℚ`. -/

/-- Digits-to-number accumulation. -/
def digitsToNat (ds : List Char) : Nat :=
  ds.foldl (fun n c => n * 10 + (c.toNat - '0'.toNat)) 0

/-- Optional leading sign; returns (is-negative, rest). -/
def splitSign : List Char → Bool × List Char
  | '-' :: rest => (true, rest)
  | '+' :: rest => (false, rest)
  | cs => (false, cs)

/-- Nonnegative power of ten in `ℚ`. -/
def pow10 (n : Nat) : ℚ := (10 : ℚ) ^ n

/-- Scale by a signed power of ten (the exponent part of a float literal). -/
def applyExp (q : ℚ) : Int → ℚ
  | Int.ofNat n => q * pow10 n
  | Int.negSucc n => q / pow10 (n + 1)

/-- Parse the optional exponent suffix (`e`/`E`, sign, digits); `none` on
malformed input, `some 0` on empty input. -/
def parseExp : List Char → Option Int
  | [] => some 0
  | c :: rest =>
    if c = 'e' ∨ c = 'E' then
      let (neg, rest2) := splitSign rest
      let ds := rest2.takeWhile Char.isDigit
      let rest3 := rest2.dropWhile Char.isDigit
      if ds.isEmpty ∨ ¬rest3.isEmpty then none
      else some (if neg then -(digitsToNat ds : Int) else (digitsToNat ds : Int))
    else none

/-- The exact decimal components of a float literal: sign, integer part,
fractional digits (value and count) and exponent. -/
structure FloatRep where
  neg : Bool
  intPart : Nat
  fracPart : Nat
  fracLen : Nat
  exp : Int
deriving DecidableEq, Repr

/-- Syntactic part of Python `float(s)`: strip whitespace, read sign,
mantissa and exponent; `none` when `float` would raise `ValueError`. -/
def parseFloatRep (s : String) : Option FloatRep :=
  let cs := stripChars s.toList
  let (neg, cs1) := splitSign cs
  let intD := cs1.takeWhile Char.isDigit
  let rest1 := cs1.dropWhile Char.isDigit
  match rest1 with
  | '.' :: rest2 =>
    let fracD := rest2.takeWhile Char.isDigit
    let rest3 := rest2.dropWhile Char.isDigit
    if intD.isEmpty && fracD.isEmpty then none
    else
      match parseExp rest3 with
      | none => none
      | some e => some ⟨neg, digitsToNat intD, digitsToNat fracD, fracD.length, e⟩
  | _ =>
    if intD.isEmpty then none
    else
      match parseExp rest1 with
      | none => none
      | some e => some ⟨neg, digitsToNat intD, 0, 0, e⟩

/-- The exact rational value of a parsed float literal. -/
def repValue (r : FloatRep) : ℚ :=
  let mant : ℚ := (r.intPart : ℚ) + (r.fracPart : ℚ) / pow10 r.fracLen
  let mag := applyExp mant r.exp
  if r.neg then -mag else mag

/-- Model of Python `float(s)` over `ℚ`: `none` when `float` would raise
`ValueError`. -/
def parseFloat (s : String) : Option ℚ :=
  (parseFloatRep s).map repValue

/-! ## Rounding

Python `round(x, 2)` rounds half-to-even.  Idealized here over `ℚ`
(round-half-even at the second decimal place); binary64 representation
effects are outside this model. -/

/-- Round a rational to the nearest integer, ties to even. -/
def roundHalfEven (q : ℚ) : ℤ :=
  let n := ⌊q⌋
  let f := q - n
  if f < 1 / 2 then n
  else if 1 / 2 < f then n + 1
  else if n % 2 = 0 then n else n + 1

/-- Model of Python `round(x, 2)`. -/
def round2 (q : ℚ) : ℚ := (roundHalfEven (q * 100) : ℚ) / 100


/-! ## Records

Python builds each record as `dict(zip(header, values))`: an insertion-order
mapping where a later pair with the same key silently overwrites an earlier
one.  A `Record` is the ordered pair list; `dictGet` is `dict.get` with its
last-binding-wins semantics. -/

/-- One parsed row: field name/value pairs in column order. -/
abbrev Record : Type := List (String × String)

/-- `dict(zip(...)).get(k)`: the value of the last pair carrying key `k`
(later duplicate columns overwrite earlier ones), `none` if absent. -/
def dictGet (r : Record) (k : String) : Option String :=
  r.foldl (fun acc p => if p.1 = k then some p.2 else acc) none

/-- `r.get(k, "")`: field value with empty-string default. -/
def getS (r : Record) (k : String) : String := (dictGet r k).getD ""

/-! ## Diagnostics

The source logs warnings for skipped rows/records.  Modelled as structured
events instead of formatted log strings. -/

/-- A non-fatal diagnostic logged for a skipped row or record. -/
inductive Diag where
  /-- Row whose value count mismatches the header (`parse_csv`); carries
  the stripped raw line the log message interpolates. -/
  | rowArity (rawLine : String)
  /-- Record with none of the rate fields present. -/
  | missingRate (r : Record)
  /-- Record whose processing raised an exception (numeric parse failure). -/
  | recordError (r : Record)
deriving DecidableEq

/-! ## `parse_csv` (src/main.py lines 38-75)

The file content is modelled as the list of its lines (Python's
`f.readline()` / iteration, without terminators).  An empty file yields an
empty header line in Python (`"".strip().split(",") = [""]`) but the data
loop never runs, so the result is `[]` either way; the `[]` case below
matches that observable behaviour. -/

/-- Header splitting: `[h.strip() for h in headerLine.strip().split(",")]`. -/
def parseHeader (headerLine : String) : List String :=
  (pySplitComma (pyStrip headerLine)).map pyStrip

/-- Value splitting: `[v.strip() for v in line.strip().split(",")]`. -/
def splitValues (line : String) : List String :=
  (pySplitComma (pyStrip line)).map pyStrip

/-- Per-line body of the `parse_csv` loop: arity check, then
`dict(zip(header, values))`; a mismatch yields the logged warning. -/
def processLine (header : List String) (line : String) : Record ⊕ Diag :=
  let values := splitValues line
  if values.length ≠ header.length then Sum.inr (Diag.rowArity (pyStrip line))
  else Sum.inl (header.zip values)

/-- Output of `parse_csv`: accepted records plus logged diagnostics. -/
structure ParseOutput where
  records : List Record
  diags : List Diag
deriving DecidableEq

/-- Loop body shared by `parse_csv` and both `generate` loops: append the
produced value to the output being built, or append the logged diagnostic. -/
def accumStep {β γ : Type} (x : β ⊕ γ) (acc : List β × List γ) : List β × List γ :=
  match x with
  | Sum.inl b => (acc.1 ++ [b], acc.2)
  | Sum.inr c => (acc.1, acc.2 ++ [c])

/-- `parse_csv` on already-read file content. -/
def parse_csv (lines : List String) : ParseOutput :=
  match lines with
  | [] => ⟨[], []⟩
  | headerLine :: rest =>
    let header := parseHeader headerLine
    let step := rest.foldl
      (fun acc line => accumStep (processLine header line) acc) ([], [])
    ⟨step.1, step.2⟩

/-! ## Rate-field resolution

`VALID_RATE_FIELDS` lives in `src/constants.py`, which is not part of the
sources at hand; only its import and uses are.

Modelled from the spec: the fixed priority order {hourly_rate, rate,
salary} of the missing `src.constants.VALID_RATE_FIELDS` list. -/
def VALID_RATE_FIELDS : List String := ["hourly_rate", "rate", "salary"]

/-- `next((f for f in VALID_RATE_FIELDS if f in r), None)`. -/
def resolveRateField (r : Record) : Option String :=
  VALID_RATE_FIELDS.find? (fun f => (dictGet r f).isSome)

/-! ## `PayoutReport.generate` (src/main.py lines 95-143) -/

/-- One entry of the payout report. -/
structure PayoutResult where
  id : String
  name : String
  department : String
  payout : ℚ
deriving DecidableEq

/-- `float(r.get("hours_worked", 0))`: the absent field defaults to `0`,
unparsable text raises (`none`). -/
def hoursValue (r : Record) : Option ℚ :=
  match dictGet r "hours_worked" with
  | none => some 0
  | some s => parseFloat s

/-- Per-record body of the `PayoutReport.generate` loop, with the caught
exception paths made explicit: `float(r.get("hours_worked", 0))` runs
first (unparsable text raises and is caught), then rate-field resolution
(absence logs a warning and skips), then `float(r[rate_field])`
(unparsable text raises and is caught). -/
def payoutStepD (r : Record) : PayoutResult ⊕ Diag :=
  match hoursValue r with
  | none => Sum.inr (Diag.recordError r)
  | some hours =>
    match resolveRateField r with
    | none => Sum.inr (Diag.missingRate r)
    | some f =>
      match parseFloat (getS r f) with
      | none => Sum.inr (Diag.recordError r)
      | some rate =>
        Sum.inl ⟨getS r "id", getS r "name", getS r "department", round2 (hours * rate)⟩

/-- Output of one aggregator run: the report's results plus the logged
diagnostics (the batch always runs to completion; no exception escapes). -/
structure PayoutOutput where
  results : List PayoutResult
  diags : List Diag
deriving DecidableEq

/-- `PayoutReport.generate`: the `result` accumulation loop. -/
def PayoutReport.generate (records : List Record) : PayoutOutput :=
  let step := records.foldl
    (fun acc r => accumStep (payoutStepD r) acc) ([], [])
  ⟨step.1, step.2⟩

/-! ## `AverageRateReport.generate` (src/main.py lines 146-185) -/

/-- Per-record body of the `AverageRateReport.generate` loop: rate-field
resolution (absence logs and skips), department lookup with `""` default,
then `float(r[rate_field])` (unparsable text raises and is caught).  A
success contributes (department, rate) to the accumulation dict. -/
def avgStepD (r : Record) : (String × ℚ) ⊕ Diag :=
  match resolveRateField r with
  | none => Sum.inr (Diag.missingRate r)
  | some f =>
    let dept := getS r "department"
    match parseFloat (getS r f) with
    | none => Sum.inr (Diag.recordError r)
    | some rate => Sum.inl (dept, rate)

/-- Keys in first-insertion order (Python dict key order under
`setdefault`), deduplicated keeping the first occurrence. -/
def dedupFirst : List String → List String
  | [] => []
  | k :: rest => k :: (dedupFirst rest).filter (fun x => x ≠ k)

/-- The rates accumulated for department `d`, in contribution order
(the list `departments[d]` builds up). -/
def ratesFor (cs : List (String × ℚ)) (d : String) : List ℚ :=
  (cs.filter (fun p => p.1 = d)).map Prod.snd

/-- `round(sum(rates) / len(rates), 2)` for department `k`, `none` when the
`if rates` guard fails (no contribution). -/
def avgValue (cs : List (String × ℚ)) (k : String) : Option ℚ :=
  let rs := ratesFor cs k
  if rs.isEmpty then none else some (round2 (rs.sum / (rs.length : ℚ)))

/-- The comprehension `{dept: round(sum(rates)/len(rates), 2) for dept,
rates in departments.items() if rates}` over the accumulated
contributions: keys in first-contribution order. -/
def deptAverages (cs : List (String × ℚ)) : List (String × ℚ) :=
  (dedupFirst (cs.map Prod.fst)).filterMap (fun k => (avgValue cs k).map (fun v => (k, v)))

/-- Output of `AverageRateReport.generate`: the department→average mapping
(association list in Python dict key order) plus logged diagnostics. -/
structure AvgOutput where
  results : List (String × ℚ)
  diags : List Diag
deriving DecidableEq

/-- `AverageRateReport.generate`: accumulate per-department rates, then
reduce to rounded means. -/
def AverageRateReport.generate (records : List Record) : AvgOutput :=
  let step := records.foldl
    (fun acc r => accumStep (avgStepD r) acc) ([], [])
  ⟨deptAverages step.1, step.2⟩

/-- Mapping lookup on an association-list result (`results[dept]`). -/
def lookupD (m : List (String × ℚ)) (d : String) : Option ℚ :=
  (m.find? (fun p => p.1 = d)).map Prod.snd

/-! ## The read/aggregate pipeline (src/main.py lines 57-75 and 235-271)

`open` either yields the file content or raises; `parse_csv` catches
`FileNotFoundError` and any other read error and calls `sys.exit(1)`.
Modelled with an explicit read outcome and `Except Nat` for process exit. -/

/-- Outcome of opening/reading one input path. -/
inductive ReadResult where
  /-- The file was read; its content as a list of lines. -/
  | ok (lines : List String)
  /-- `FileNotFoundError`. -/
  | notFound
  /-- Any other read error. -/
  | readFailure
deriving DecidableEq

/-- `parse_csv` including its error handling: an unreadable source logs an
error and exits the process with status 1. -/
def runParse : ReadResult → Except Nat ParseOutput
  | ReadResult.ok lines => Except.ok (parse_csv lines)
  | ReadResult.notFound => Except.error 1
  | ReadResult.readFailure => Except.error 1

/-- The `all_records` accumulation loop of `main`: concatenate the records
of every input file; a fatal `parse_csv` exit aborts the whole run. -/
def readAllRecords : List ReadResult → Except Nat (List Record)
  | [] => Except.ok []
  | src :: rest =>
    match runParse src with
    | Except.error c => Except.error c
    | Except.ok out =>
      match readAllRecords rest with
      | Except.error c => Except.error c
      | Except.ok more => Except.ok (out.records ++ more)

/-- The report kind selected on the command line. -/
inductive ReportKind where
  | payout
  | average_rate
deriving DecidableEq

/-- The ReportDocument handed to the output boundary. -/
inductive ReportDocument where
  | payout (results : List PayoutResult)
  | average_rate (results : List (String × ℚ))
deriving DecidableEq

/-- `main` up to the output boundary: read all inputs, then run the
selected aggregator; `Except.error` is a fatal process exit with no
report produced. -/
def runPipeline (kind : ReportKind) (sources : List ReadResult) : Except Nat ReportDocument :=
  match readAllRecords sources with
  | Except.error c => Except.error c
  | Except.ok records =>
    match kind with
    | ReportKind.payout => Except.ok (ReportDocument.payout (PayoutReport.generate records).results)
    | ReportKind.average_rate => Except.ok (ReportDocument.average_rate (AverageRateReport.generate records).results)

/-! ## Spec-side model of one payout entry

Written from the spec's words (§4.2 steps 1-6) rather than the source, to
be compared with `payoutStepD`: a record with a resolvable rate field whose
`hours_worked` (absent = zero) and rate values parse as real numbers yields
exactly one entry with `id`/`name`/`department` verbatim (empty when
absent) and payout = hours × rate rounded to 2 decimal places; any other
record yields no entry. -/
def payoutResultSpec (r : Record) : Option PayoutResult :=
  match resolveRateField r with
  | none => none
  | some f =>
    match hoursValue r, parseFloat (getS r f) with
    | some h, some rate =>
      some ⟨getS r "id", getS r "name", getS r "department", round2 (h * rate)⟩
    | _, _ => none

/-! ## Sanity checks on the numeric model -/

example : parseFloatRep "160" = some ⟨false, 160, 0, 0, 0⟩ := by decide
example : parseFloat "160" = some 160 := by
  have h : parseFloatRep "160" = some ⟨false, 160, 0, 0, 0⟩ := by decide
  simp [parseFloat, h, repValue, applyExp, pow10]
example : parseFloat "1.5" = some (3 / 2) := by
  have h : parseFloatRep "1.5" = some ⟨false, 1, 5, 1, 0⟩ := by decide
  rw [parseFloat, h]
  simp [repValue, applyExp, pow10]
  norm_num
example : parseFloat "bad" = none := by
  have h : parseFloatRep "bad" = none := by decide
  simp [parseFloat, h]
example : parseFloat "" = none := by
  have h : parseFloatRep "" = none := by decide
  simp [parseFloat, h]
example : parseFloat "-2e1" = some (-20) := by
  have h : parseFloatRep "-2e1" = some ⟨true, 2, 0, 0, 1⟩ := by decide
  rw [parseFloat, h]
  simp [repValue, applyExp, pow10]
  norm_num
example : round2 (3 / 1000) = 0 := by norm_num [round2, roundHalfEven]
example : round2 (1 / 40) = 1 / 50 := by norm_num [round2, roundHalfEven]
example : pySplitComma "a,b" = ["a", "b"] := by decide
example : pySplitComma "" = [""] := by decide
example : pyStrip "  a b " = "a b" := by decide

/-! ## Helper lemmas: the accumulate loops as `filterMap` -/

/-- The result/diagnostic accumulation loop shared by `parse_csv` and the
two aggregators, as a pair of `filterMap`s. -/
theorem foldlPartition {α β γ : Type} (f : α → β ⊕ γ) (l : List α) (acc : List β × List γ) :
    l.foldl (fun acc x => accumStep (f x) acc) acc
    = (acc.1 ++ l.filterMap (fun x => (f x).getLeft?),
       acc.2 ++ l.filterMap (fun x => (f x).getRight?)) := by
  induction l generalizing acc with
  | nil => simp
  | cons x xs ih =>
    rw [List.foldl_cons, ih]
    cases hfx : f x with
    | inl b => simp [hfx, List.filterMap_cons, accumStep]
    | inr c => simp [hfx, List.filterMap_cons, accumStep]

theorem payout_results_eq (records : List Record) :
    (PayoutReport.generate records).results
      = records.filterMap (fun r => (payoutStepD r).getLeft?) := by
  simp [PayoutReport.generate, foldlPartition]

theorem payout_diags_eq (records : List Record) :
    (PayoutReport.generate records).diags
      = records.filterMap (fun r => (payoutStepD r).getRight?) := by
  simp [PayoutReport.generate, foldlPartition]

theorem avg_results_eq (records : List Record) :
    (AverageRateReport.generate records).results
      = deptAverages (records.filterMap (fun r => (avgStepD r).getLeft?)) := by
  simp [AverageRateReport.generate, foldlPartition]

theorem avg_diags_eq (records : List Record) :
    (AverageRateReport.generate records).diags
      = records.filterMap (fun r => (avgStepD r).getRight?) := by
  simp [AverageRateReport.generate, foldlPartition]

theorem parse_records_eq (headerLine : String) (rest : List String) :
    (parse_csv (headerLine :: rest)).records
      = rest.filterMap (fun line => (processLine (parseHeader headerLine) line).getLeft?) := by
  simp [parse_csv, foldlPartition]

theorem parse_diags_eq (headerLine : String) (rest : List String) :
    (parse_csv (headerLine :: rest)).diags
      = rest.filterMap (fun line => (processLine (parseHeader headerLine) line).getRight?) := by
  simp [parse_csv, foldlPartition]

/-- Each element lands in exactly one of the two `filterMap`s. -/
theorem filterMap_partition_length {α β γ : Type} (f : α → β ⊕ γ) (l : List α) :
    (l.filterMap (fun x => (f x).getLeft?)).length
      + (l.filterMap (fun x => (f x).getRight?)).length = l.length := by
  induction l with
  | nil => simp
  | cons x xs ih =>
    cases hfx : f x <;> simp [List.filterMap_cons, hfx] <;> omega

/-! ## Helper lemmas: mapping lookups -/

/-- `dict(zip(...))` lookup returns the value of the last pair with the
key: later duplicate columns overwrite earlier ones. -/
theorem dictGet_eq_getLast (ps : List (String × String)) (k : String) :
    dictGet ps k = ((ps.filter (fun p => p.1 = k)).map Prod.snd).getLast? := by
  induction ps using List.reverseRecOn with
  | nil => rfl
  | append_singleton ps p ih =>
    unfold dictGet at ih ⊢
    rw [List.foldl_append, List.foldl_cons, List.foldl_nil, List.filter_append]
    by_cases hpk : p.1 = k
    · simp [hpk]
    · simp [hpk, ih]

theorem mem_dedupFirst {d : String} {l : List String} : d ∈ dedupFirst l ↔ d ∈ l := by
  induction l with
  | nil => simp [dedupFirst]
  | cons k rest ih =>
    by_cases hdk : d = k
    · subst hdk; simp [dedupFirst]
    · simp [dedupFirst, List.mem_filter, hdk, ih]

theorem lookupD_cons (p : String × ℚ) (m : List (String × ℚ)) (d : String) :
    lookupD (p :: m) d = if p.1 = d then some p.2 else lookupD m d := by
  by_cases h : p.1 = d <;> simp [lookupD, List.find?_cons, h]

/-- Looking up `d` in a map built over a key list with a key-determined
value function finds `g d` exactly when `d` is a listed key. -/
theorem lookupD_filterMapKeys (L : List String) (g : String → Option ℚ) (d : String) :
    lookupD (L.filterMap (fun k => (g k).map (fun v => (k, v)))) d
      = if d ∈ L then g d else none := by
  induction L with
  | nil => simp [lookupD]
  | cons k rest ih =>
    by_cases hkd : k = d
    · subst hkd
      cases hgk : g k with
      | none => simp [List.filterMap_cons, hgk, ih]
      | some v => simp [List.filterMap_cons, hgk, lookupD_cons]
    · have hdk : ¬ d = k := fun h => hkd h.symm
      cases hgk : g k with
      | none =>
        simp only [List.filterMap_cons, hgk, Option.map_none']
        rw [ih]
        simp [List.mem_cons, hdk]
      | some v =>
        simp only [List.filterMap_cons, hgk, Option.map_some']
        rw [lookupD_cons, if_neg hkd, ih]
        simp [List.mem_cons, hdk]

theorem ratesFor_isEmpty_iff (cs : List (String × ℚ)) (d : String) :
    (ratesFor cs d).isEmpty = true ↔ d ∉ cs.map Prod.fst := by
  constructor
  · intro h hmem
    rcases List.mem_map.mp hmem with ⟨p, hp, hpd⟩
    have : p.2 ∈ ratesFor cs d := by
      apply List.mem_map_of_mem
      exact List.mem_filter.mpr ⟨hp, by simp [hpd]⟩
    rw [List.isEmpty_iff] at h
    simp [h] at this
  · intro h
    rw [List.isEmpty_iff]
    unfold ratesFor
    rw [List.map_eq_nil_iff, List.filter_eq_nil_iff]
    intro p hp
    simp only [decide_eq_true_eq]
    intro hpd
    exact h (List.mem_map.mpr ⟨p, hp, hpd⟩)

/-! ## Helper lemmas: per-line and per-record steps -/

theorem processLine_getLeft (header : List String) (line : String) :
    (processLine header line).getLeft?
      = if (splitValues line).length = header.length
          then some (header.zip (splitValues line)) else none := by
  unfold processLine
  by_cases h : (splitValues line).length = header.length <;> simp [h]

theorem processLine_getRight (header : List String) (line : String) :
    (processLine header line).getRight?
      = if (splitValues line).length = header.length
          then none else some (Diag.rowArity (pyStrip line)) := by
  unfold processLine
  by_cases h : (splitValues line).length = header.length <;> simp [h]

/-- `filterMap` of a guarded `some` is `filter` then `map`. -/
theorem filterMap_guard {α β : Type} (p : α → Prop) [DecidablePred p] (g : α → β) (l : List α) :
    l.filterMap (fun x => if p x then some (g x) else none)
      = (l.filter (fun x => p x)).map g := by
  induction l with
  | nil => rfl
  | cons x xs ih => by_cases hx : p x <;> simp [hx, ih]

/-- The caught-exception structure of the payout loop body produces exactly
the entries the spec describes. -/
theorem payoutStepD_getLeft (r : Record) :
    (payoutStepD r).getLeft? = payoutResultSpec r := by
  unfold payoutStepD payoutResultSpec
  cases hh : hoursValue r with
  | none =>
    cases hf : resolveRateField r with
    | none => simp
    | some f => cases hp : parseFloat (getS r f) <;> simp [hp]
  | some hours =>
    cases hf : resolveRateField r with
    | none => simp
    | some f => cases hp : parseFloat (getS r f) <;> simp [hp]

theorem round2_nonneg (q : ℚ) (hq : 0 ≤ q) : 0 ≤ round2 q := by
  have h100 : (0 : ℚ) ≤ q * 100 := by positivity
  have hfl : (0 : ℤ) ≤ ⌊q * 100⌋ := Int.le_floor.mpr (by exact_mod_cast h100)
  have key : (0 : ℤ) ≤ roundHalfEven (q * 100) := by
    simp only [roundHalfEven]
    split
    · exact hfl
    · split
      · omega
      · split
        · exact hfl
        · omega
  simp only [round2]
  apply div_nonneg _ (by norm_num)
  exact_mod_cast key

/-! ## Claim theorems -/

/-- C1: `PayoutReport.generate` emits, in input-record order, exactly one
`PayoutResult` per record with a resolvable rate field whose hours and rate
values parse, carrying `id`/`name`/`department` verbatim (empty string when
absent) and payout = hours × rate rounded to 2 decimal places; every other
record leaves no entry: the results equal the order-preserving `filterMap`
of the spec-side per-record entry function. -/
theorem payout_generate_matches_spec (records : List Record) :
    (PayoutReport.generate records).results = records.filterMap payoutResultSpec := by
  rw [payout_results_eq]
  simp only [payoutStepD_getLeft]

/-- C2: the average-rate report maps department `d` to the rounded
arithmetic mean of the successfully resolved-and-parsed rates of the
records in `d`, and has no entry at all for a department with no
contributing record. -/
theorem average_rate_characterization (records : List Record) (d : String) :
    lookupD (AverageRateReport.generate records).results d
      = (if (ratesFor (records.filterMap (fun r => (avgStepD r).getLeft?)) d).isEmpty
           then none
           else some (round2
             ((ratesFor (records.filterMap (fun r => (avgStepD r).getLeft?)) d).sum
               / ((ratesFor (records.filterMap (fun r => (avgStepD r).getLeft?)) d).length : ℚ)))) := by
  rw [avg_results_eq]
  set cs := records.filterMap (fun r => (avgStepD r).getLeft?) with hcs
  unfold deptAverages
  rw [lookupD_filterMapKeys]
  by_cases hd : d ∈ cs.map Prod.fst
  · rw [if_pos (mem_dedupFirst.mpr hd)]
    simp [avgValue]
  · rw [if_neg (fun h => hd (mem_dedupFirst.mp h))]
    have he : (ratesFor cs d).isEmpty = true := (ratesFor_isEmpty_iff cs d).mpr hd
    simp [he]

/-- C3: both aggregators resolve a record's rate from the first present
field in the fixed order hourly_rate, rate, salary, use only that field's
value, and exclude a record lacking all three from both reports. -/
theorem rate_field_priority (r : Record) :
    ((dictGet r "hourly_rate").isSome = true → resolveRateField r = some "hourly_rate") ∧
    ((dictGet r "hourly_rate").isSome = false → (dictGet r "rate").isSome = true →
      resolveRateField r = some "rate") ∧
    ((dictGet r "hourly_rate").isSome = false → (dictGet r "rate").isSome = false →
      (dictGet r "salary").isSome = true → resolveRateField r = some "salary") ∧
    ((dictGet r "hourly_rate").isSome = false → (dictGet r "rate").isSome = false →
      (dictGet r "salary").isSome = false →
      resolveRateField r = none ∧ (payoutStepD r).getLeft? = none
        ∧ (avgStepD r).getLeft? = none) ∧
    (∀ f, resolveRateField r = some f →
      (∀ hours rate, hoursValue r = some hours → parseFloat (getS r f) = some rate →
        payoutStepD r = Sum.inl ⟨getS r "id", getS r "name", getS r "department",
          round2 (hours * rate)⟩) ∧
      (∀ rate, parseFloat (getS r f) = some rate →
        avgStepD r = Sum.inl (getS r "department", rate))) := by
  refine ⟨?_, ?_, ?_, ?_, ?_⟩
  · intro h1
    simp [resolveRateField, VALID_RATE_FIELDS, List.find?_cons, h1]
  · intro h1 h2
    simp [resolveRateField, VALID_RATE_FIELDS, List.find?_cons, h1, h2]
  · intro h1 h2 h3
    simp [resolveRateField, VALID_RATE_FIELDS, List.find?_cons, h1, h2, h3]
  · intro h1 h2 h3
    have hnone : resolveRateField r = none := by
      simp [resolveRateField, VALID_RATE_FIELDS, List.find?_cons, h1, h2, h3]
    refine ⟨hnone, ?_, ?_⟩
    · unfold payoutStepD
      cases hh : hoursValue r with
      | none => simp
      | some hours => simp [hnone]
    · unfold avgStepD
      simp [hnone]
  · intro f hf
    constructor
    · intro hours rate hh hp
      unfold payoutStepD
      simp [hh, hf, hp]
    · intro rate hp
      unfold avgStepD
      rw [hf]
      simp [hp]

/-- C3 witness: a record carrying both `rate` and `salary` (no
`hourly_rate`) resolves to `rate`. -/
theorem rate_field_priority_witness :
    resolveRateField [("rate", "10"), ("salary", "20")] = some "rate" := by
  have h := (rate_field_priority [("rate", "10"), ("salary", "20")]).2.1
  exact h (by decide) (by decide)

/-- C5: both aggregators always complete the whole batch (they are total
functions): the results contain exactly the valid records' contributions,
every invalid record contributes exactly one diagnostic instead, and
result plus diagnostic counts exhaust the batch. -/
theorem skip_without_abort (records : List Record) :
    (PayoutReport.generate records).results
        = records.filterMap (fun r => (payoutStepD r).getLeft?) ∧
    (PayoutReport.generate records).diags
        = records.filterMap (fun r => (payoutStepD r).getRight?) ∧
    (PayoutReport.generate records).results.length
        + (PayoutReport.generate records).diags.length = records.length ∧
    (AverageRateReport.generate records).results
        = deptAverages (records.filterMap (fun r => (avgStepD r).getLeft?)) ∧
    (AverageRateReport.generate records).diags
        = records.filterMap (fun r => (avgStepD r).getRight?) ∧
    (AverageRateReport.generate records).diags.length
        + (records.filterMap (fun r => (avgStepD r).getLeft?)).length = records.length := by
  refine ⟨payout_results_eq records, payout_diags_eq records, ?_,
    avg_results_eq records, avg_diags_eq records, ?_⟩
  · rw [payout_results_eq, payout_diags_eq]
    exact filterMap_partition_length payoutStepD records
  · rw [avg_diags_eq]
    have := filterMap_partition_length avgStepD records
    omega

/-- C4: every accepted record has exactly as many fields as the header;
exactly the lines whose split-and-trimmed value count differs from the
header's field count are excluded, each leaving one diagnostic carrying the
offending line, while parsing continues over all remaining lines. -/
theorem parse_csv_row_arity (headerLine : String) (rest : List String) :
    (∀ rec ∈ (parse_csv (headerLine :: rest)).records,
        List.length rec = (parseHeader headerLine).length) ∧
    (parse_csv (headerLine :: rest)).records
      = rest.filterMap (fun line =>
          if (splitValues line).length = (parseHeader headerLine).length
            then some ((parseHeader headerLine).zip (splitValues line)) else none) ∧
    (parse_csv (headerLine :: rest)).diags
      = (rest.filter
            (fun line => (splitValues line).length ≠ (parseHeader headerLine).length)).map
          (fun line => Diag.rowArity (pyStrip line)) := by
  refine ⟨?_, ?_, ?_⟩
  · intro rec hmem
    rw [parse_records_eq] at hmem
    rcases List.mem_filterMap.mp hmem with ⟨line, _, hres⟩
    rw [processLine_getLeft] at hres
    by_cases harity : (splitValues line).length = (parseHeader headerLine).length
    · rw [if_pos harity] at hres
      cases hres
      simp [List.length_zip, harity]
    · rw [if_neg harity] at hres
      cases hres
  · rw [parse_records_eq]
    simp only [processLine_getLeft]
  · rw [parse_diags_eq]
    simp only [processLine_getRight]
    have hflip : ∀ line : String,
        (if (splitValues line).length = (parseHeader headerLine).length
          then (none : Option Diag) else some (Diag.rowArity (pyStrip line)))
        = if (splitValues line).length ≠ (parseHeader headerLine).length
            then some (Diag.rowArity (pyStrip line)) else none := by
      intro line
      by_cases h : (splitValues line).length = (parseHeader headerLine).length <;> simp [h]
    simp only [hflip]
    exact filterMap_guard _ _ rest

/-- C4 witness: header with two fields, one conforming row, one
single-value row; the bad row leaves exactly one diagnostic. -/
theorem parse_csv_row_arity_witness :
    (parse_csv ["a,b", "1,2", "x"]).diags = [Diag.rowArity "x"] := by
  have h := (parse_csv_row_arity "a,b" ["1,2", "x"]).2.2
  rw [h]
  decide

/-- C8: an unreadable or nonexistent input source makes the whole pipeline
terminate fatally with exit status 1 — no report document is produced for
either report kind. -/
theorem fatal_on_unreadable (kind : ReportKind) (sources : List ReadResult) (src : ReadResult)
    (hmem : src ∈ sources)
    (hbad : src = ReadResult.notFound ∨ src = ReadResult.readFailure) :
    runPipeline kind sources = Except.error 1 := by
  have hall : ∀ ss : List ReadResult, src ∈ ss → readAllRecords ss = Except.error 1 := by
    intro ss
    induction ss with
    | nil => intro h; cases h
    | cons s rest ih =>
      intro hmem'
      rcases List.mem_cons.mp hmem' with rfl | htail
      · rcases hbad with rfl | rfl <;> simp [readAllRecords, runParse]
      · cases s with
        | ok lines => simp [readAllRecords, runParse, ih htail]
        | notFound => simp [readAllRecords, runParse]
        | readFailure => simp [readAllRecords, runParse]
  simp [runPipeline, hall sources hmem]

/-- C8 witness: a single nonexistent input path exits fatally. -/
theorem fatal_on_unreadable_witness :
    runPipeline ReportKind.payout [ReadResult.notFound] = Except.error 1 :=
  fatal_on_unreadable ReportKind.payout [ReadResult.notFound] ReadResult.notFound
    (by simp) (Or.inl rfl)

/-- C9: every accepted record is the column-order zip of the header with
the row's values, and looking up a field name returns the value of the
last (rightmost) pair carrying it — with duplicate header names, later
columns silently overwrite earlier ones. -/
theorem duplicate_header_last_wins (headerLine : String) (rest : List String) (rec : Record)
    (hrec : rec ∈ (parse_csv (headerLine :: rest)).records) (k : String) :
    (∃ line ∈ rest, rec = (parseHeader headerLine).zip (splitValues line)) ∧
    dictGet rec k = ((rec.filter (fun p => p.1 = k)).map Prod.snd).getLast? := by
  constructor
  · rw [parse_records_eq] at hrec
    rcases List.mem_filterMap.mp hrec with ⟨line, hline, hres⟩
    rw [processLine_getLeft] at hres
    by_cases harity : (splitValues line).length = (parseHeader headerLine).length
    · rw [if_pos harity] at hres
      exact ⟨line, hline, (Option.some.inj hres).symm⟩
    · rw [if_neg harity] at hres
      cases hres
  · exact dictGet_eq_getLast rec k

/-- C9 witness: with duplicate header name `a`, the record maps `a` to the
second (last) column's value. -/
theorem duplicate_header_last_wins_witness :
    dictGet [("a", "1"), ("a", "2")] "a" = some "2" := by
  have h := (duplicate_header_last_wins "a,a" ["1,2"] [("a", "1"), ("a", "2")]
    (by decide) "a").2
  rw [h]
  decide

/-- C10: a blank or whitespace-only data line is one empty value after
splitting: with a header of two or more fields it is rejected with a
row-arity diagnostic (never silently dropped), and with a one-field header
it is accepted as a record mapping that field to the empty string. -/
theorem blank_line_single_empty_field (headerLine line : String)
    (hblank : pyStrip line = "") :
    (2 ≤ (parseHeader headerLine).length →
      parse_csv [headerLine, line] = ⟨[], [Diag.rowArity ""]⟩) ∧
    ((parseHeader headerLine).length = 1 →
      ∃ h0, parseHeader headerLine = [h0] ∧
        parse_csv [headerLine, line] = ⟨[[(h0, "")]], []⟩) := by
  have hvals : splitValues line = [""] := by
    unfold splitValues
    rw [hblank]
    decide
  have hsplit : parse_csv [headerLine, line]
      = ⟨(parse_csv [headerLine, line]).records, (parse_csv [headerLine, line]).diags⟩ := rfl
  constructor
  · intro h2
    have harity : (splitValues line).length ≠ (parseHeader headerLine).length := by
      rw [hvals]
      simp only [List.length_singleton]
      omega
    have hpl : processLine (parseHeader headerLine) line = Sum.inr (Diag.rowArity "") := by
      unfold processLine
      rw [if_pos harity, hblank]
    rw [hsplit, parse_records_eq, parse_diags_eq]
    simp [hpl]
  · intro h1
    rcases List.length_eq_one.mp h1 with ⟨h0, hh0⟩
    refine ⟨h0, hh0, ?_⟩
    have harity : ¬ (splitValues line).length ≠ (parseHeader headerLine).length := by
      rw [hvals, h1]
      simp
    have hpl : processLine (parseHeader headerLine) line = Sum.inl [(h0, "")] := by
      unfold processLine
      rw [if_neg harity, hh0, hvals]
      rfl
    rw [hsplit, parse_records_eq, parse_diags_eq]
    simp [hpl]

/-- C10 witness: a two-field header rejects a whitespace-only line with a
row-arity diagnostic. -/
theorem blank_line_witness :
    parse_csv ["a,b", " "] = ⟨[], [Diag.rowArity ""]⟩ := by
  have h := (blank_line_single_empty_field "a,b" " " (by decide)).1
  exact h (by decide)

/-- C7 counterexample: a record with negative numeric text yields a
negative payout in the report — the emitted payout is not always
non-negative. -/
theorem payout_negative_counterexample :
    (PayoutReport.generate [[("hours_worked", "-1"), ("hourly_rate", "2")]]).results
      = [⟨"", "", "", -2⟩]
    ∧ (PayoutResult.mk "" "" "" (-2 : ℚ)).payout < 0 := by
  have hm1 : parseFloat "-1" = some (-1) := by
    have h : parseFloatRep "-1" = some ⟨true, 1, 0, 0, 0⟩ := by decide
    rw [parseFloat, h]
    simp [repValue, applyExp, pow10]
  have h2 : parseFloat "2" = some 2 := by
    have h : parseFloatRep "2" = some ⟨false, 2, 0, 0, 0⟩ := by decide
    rw [parseFloat, h]
    simp [repValue, applyExp, pow10]
  have hdw : dictGet [("hours_worked", "-1"), ("hourly_rate", "2")] "hours_worked"
      = some "-1" := by decide
  have hrf : resolveRateField [("hours_worked", "-1"), ("hourly_rate", "2")]
      = some "hourly_rate" := by decide
  have hgs : getS [("hours_worked", "-1"), ("hourly_rate", "2")] "hourly_rate" = "2" := by
    decide
  have hround : round2 ((-1) * 2) = -2 := by norm_num [round2, roundHalfEven]
  constructor
  · rw [payout_results_eq]
    have hstep : payoutStepD [("hours_worked", "-1"), ("hourly_rate", "2")]
        = Sum.inl ⟨"", "", "", -2⟩ := by
      unfold payoutStepD hoursValue
      simp only [hdw, hm1, hrf, hgs, h2, hround]
      have hid : getS [("hours_worked", "-1"), ("hourly_rate", "2")] "id" = "" := by decide
      have hname : getS [("hours_worked", "-1"), ("hourly_rate", "2")] "name" = "" := by decide
      have hdept : getS [("hours_worked", "-1"), ("hourly_rate", "2")] "department" = "" := by
        decide
      rw [hid, hname, hdept]
    simp [hstep]
  · norm_num

/-- C7 (amended): an emitted payout is non-negative whenever every
successfully parsed hours and rate value of the batch is non-negative;
the code itself does not enforce non-negativity of the inputs. -/
theorem payout_nonneg_of_nonneg_inputs (records : List Record)
    (hpos : ∀ r ∈ records, ∀ q : ℚ,
      (hoursValue r = some q
        ∨ (∃ f, resolveRateField r = some f ∧ parseFloat (getS r f) = some q))
      → 0 ≤ q) :
    ∀ res ∈ (PayoutReport.generate records).results, 0 ≤ res.payout := by
  intro res hres
  rw [payout_results_eq] at hres
  rcases List.mem_filterMap.mp hres with ⟨r, hr, hstep⟩
  cases hh : hoursValue r with
  | none => simp [payoutStepD, hh] at hstep
  | some hours =>
    cases hf : resolveRateField r with
    | none => simp [payoutStepD, hh, hf] at hstep
    | some f =>
      cases hp : parseFloat (getS r f) with
      | none => simp [payoutStepD, hh, hf, hp] at hstep
      | some rate =>
        simp only [payoutStepD, hh, hf, hp, Sum.getLeft?] at hstep
        have hhours : 0 ≤ hours := hpos r hr hours (Or.inl hh)
        have hrate : 0 ≤ rate := hpos r hr rate (Or.inr ⟨f, hf, hp⟩)
        rw [← Option.some.inj hstep]
        exact round2_nonneg _ (mul_nonneg hhours hrate)

/-- C7 witness: the scenario-1 record (160 hours at rate 50) yields payout
8000, which the theorem certifies to be non-negative. -/
theorem payout_nonneg_witness :
    (0 : ℚ) ≤ (PayoutResult.mk "1" "Alice" "HR" 8000).payout := by
  have h160 : parseFloat "160" = some 160 := by
    have h : parseFloatRep "160" = some ⟨false, 160, 0, 0, 0⟩ := by decide
    rw [parseFloat, h]
    simp [repValue, applyExp, pow10]
  have h50 : parseFloat "50" = some 50 := by
    have h : parseFloatRep "50" = some ⟨false, 50, 0, 0, 0⟩ := by decide
    rw [parseFloat, h]
    simp [repValue, applyExp, pow10]
  have hdw : dictGet [("id", "1"), ("name", "Alice"), ("department", "HR"),
      ("hours_worked", "160"), ("hourly_rate", "50")] "hours_worked" = some "160" := by decide
  have hrf : resolveRateField [("id", "1"), ("name", "Alice"), ("department", "HR"),
      ("hours_worked", "160"), ("hourly_rate", "50")] = some "hourly_rate" := by decide
  have hgs : getS [("id", "1"), ("name", "Alice"), ("department", "HR"),
      ("hours_worked", "160"), ("hourly_rate", "50")] "hourly_rate" = "50" := by decide
  have hround : round2 ((160 : ℚ) * 50) = 8000 := by norm_num [round2, roundHalfEven]
  have hstep : payoutStepD [("id", "1"), ("name", "Alice"), ("department", "HR"),
      ("hours_worked", "160"), ("hourly_rate", "50")]
      = Sum.inl ⟨"1", "Alice", "HR", 8000⟩ := by
    unfold payoutStepD hoursValue
    simp only [hdw, h160, hrf, hgs, h50, hround]
    have hid : getS [("id", "1"), ("name", "Alice"), ("department", "HR"),
        ("hours_worked", "160"), ("hourly_rate", "50")] "id" = "1" := by decide
    have hname : getS [("id", "1"), ("name", "Alice"), ("department", "HR"),
        ("hours_worked", "160"), ("hourly_rate", "50")] "name" = "Alice" := by decide
    have hdept : getS [("id", "1"), ("name", "Alice"), ("department", "HR"),
        ("hours_worked", "160"), ("hourly_rate", "50")] "department" = "HR" := by decide
    rw [hid, hname, hdept]
  have hpos : ∀ r ∈ [[("id", "1"), ("name", "Alice"), ("department", "HR"),
      ("hours_worked", "160"), ("hourly_rate", "50")]], ∀ q : ℚ,
      (hoursValue r = some q
        ∨ (∃ f, resolveRateField r = some f ∧ parseFloat (getS r f) = some q))
      → 0 ≤ q := by
    intro r hr q hq
    rw [List.mem_singleton] at hr
    subst hr
    rcases hq with hq | ⟨f, hf, hq⟩
    · simp only [hoursValue, hdw, h160, Option.some.injEq] at hq
      subst hq
      norm_num
    · rw [hrf] at hf
      rw [← Option.some.inj hf, hgs, h50] at hq
      rw [← Option.some.inj hq]
      norm_num
  apply payout_nonneg_of_nonneg_inputs _ hpos
  rw [payout_results_eq]
  simp [hstep]

/-! ## Scenario sanity check: average rate of one department -/

example :
    lookupD (AverageRateReport.generate
      [[("department", "A"), ("salary", "30")],
       [("department", "A"), ("salary", "60")]]).results "A" = some 45 := by
  have h30 : parseFloat "30" = some 30 := by
    have h : parseFloatRep "30" = some ⟨false, 30, 0, 0, 0⟩ := by decide
    rw [parseFloat, h]
    simp [repValue, applyExp, pow10]
  have h60 : parseFloat "60" = some 60 := by
    have h : parseFloatRep "60" = some ⟨false, 60, 0, 0, 0⟩ := by decide
    rw [parseFloat, h]
    simp [repValue, applyExp, pow10]
  have hs1 : avgStepD [("department", "A"), ("salary", "30")] = Sum.inl ("A", 30) := by
    have hrf : resolveRateField [("department", "A"), ("salary", "30")] = some "salary" := by
      decide
    have hgs : getS [("department", "A"), ("salary", "30")] "salary" = "30" := by decide
    have hgd : getS [("department", "A"), ("salary", "30")] "department" = "A" := by decide
    unfold avgStepD
    simp only [hrf, hgs, hgd, h30]
  have hs2 : avgStepD [("department", "A"), ("salary", "60")] = Sum.inl ("A", 60) := by
    have hrf : resolveRateField [("department", "A"), ("salary", "60")] = some "salary" := by
      decide
    have hgs : getS [("department", "A"), ("salary", "60")] "salary" = "60" := by decide
    have hgd : getS [("department", "A"), ("salary", "60")] "department" = "A" := by decide
    unfold avgStepD
    simp only [hrf, hgs, hgd, h60]
  rw [avg_results_eq]
  simp only [List.filterMap_cons, List.filterMap_nil, hs1, hs2, Sum.getLeft?]
  unfold deptAverages dedupFirst avgValue ratesFor
  norm_num [lookupD, List.find?, round2, roundHalfEven]
